import Mathlib

/-!
Verification of the checkout core of the gocommerce-api repository.

The development shallowly embeds:
* the tax engine (internal/services/tax.go, SimpleTaxCalculator.Calculate),
  including an exact model of the Go float64 arithmetic it performs
  (doubles are integer pairs m·2^e, products rounded to nearest/ties-even
  at 53 significant bits, conversion to int64 truncating toward zero);
* the catalog sale-price enrichment (internal/services/catalog.go,
  CatalogService.enrichWithSalePrices);
* the cart repository (repository cart store: Save / FindByID / FindByUserID /
  FindBySessionID / Delete and the toDomain/toDatabase converters), with
  relational storage modelled as lists of header rows and item rows keyed by
  their primary keys, GORM Save modelled as upsert-by-primary-key and the
  surrounding transaction modelled by explicit rollback;
* the order repository converters (internal/repository/orders.go) and, where
  the deciding code lives in the external gocommerce library rather than in
  this repository, a model of the order materializer written from the spec.

Go time.Time values are modelled as naturals with 0 standing for the zero
time, and time.Now() is passed in explicitly as a parameter.  JSON columns
holding attribute maps or snapshots are modelled structurally: the column
stores the canonical structured value and Marshal/Unmarshal are the identity
on it.
-/

set_option maxRecDepth 40000

namespace GoCommerce

/-! ### Exact model of Go float64 arithmetic

A double is m·2^e.  The constructors below produce mantissas of at most
53 bits, as IEEE-754 binary64 does; rounding is round-to-nearest,
ties-to-even.  The fuel of bitLen covers all magnitudes the embedded code
can produce from int64 inputs by a wide margin. -/

def bitLenAux : Nat → Nat → Nat
  | 0, _ => 0
  | fuel+1, n => if n = 0 then 0 else bitLenAux fuel (n / 2) + 1

/-- Number of binary digits of a natural number (0 for 0). -/
def bitLen (n : Nat) : Nat := bitLenAux 300 n

/-- A binary64 value m·2^e. -/
structure F64 where
  m : Int
  e : Int
deriving DecidableEq, Repr

/-- Round p / 2^s to the nearest integer, ties to even. -/
def roundShiftNat (p : Nat) (s : Nat) : Nat :=
  if s = 0 then p
  else
    let q := p / 2^s
    let r := p % 2^s
    let half := 2^(s-1)
    if r < half then q
    else if half < r then q + 1
    else if q % 2 = 0 then q else q + 1

/-- Round a nonnegative p·2^e to at most 53 mantissa bits. -/
def normPos (p : Nat) (e : Int) : F64 :=
  let b := bitLen p
  if b ≤ 53 then ⟨(p : Int), e⟩
  else
    let s := b - 53
    ⟨(roundShiftNat p s : Int), e + s⟩

/-- Round p·2^e, any sign, to at most 53 mantissa bits. -/
def normSigned (p : Int) (e : Int) : F64 :=
  if 0 ≤ p then normPos p.toNat e
  else
    let f := normPos (-p).toNat e
    ⟨-f.m, f.e⟩

/-- IEEE-754 binary64 multiplication: exact product, then one rounding. -/
def mulF64 (a b : F64) : F64 := normSigned (a.m * b.m) (a.e + b.e)

/-- Go conversion float64(x) of an integer: one rounding of the exact value. -/
def intToF64 (x : Int) : F64 := normSigned x 0

/-- Go conversion int64(f) of a double: truncation toward zero. -/
def truncF64 (f : F64) : Int :=
  if 0 ≤ f.e then f.m * (2:Int)^f.e.toNat
  else
    let k := (-f.e).toNat
    if 0 ≤ f.m then ((f.m.toNat / 2^k : Nat) : Int)
    else -(((-f.m).toNat / 2^k : Nat) : Int)

/-- Round p / d to the nearest integer, ties to even. -/
def roundDivNat (p d : Nat) : Nat :=
  let q := p / d
  let r := p % d
  if 2*r < d then q else if d < 2*r then q + 1 else if q % 2 = 0 then q else q + 1

/-- The binary64 value nearest to n / d (n, d positive); this is the value a
Go float64 literal such as 0.0875 = 7/80 denotes. -/
def ratToF64 (n d : Nat) : F64 :=
  if n = 0 then ⟨0, 0⟩
  else
    let bn := bitLen n
    let bd := bitLen d
    let e0 : Int := if n * 2^bd ≥ d * 2^bn then (bn : Int) - bd else (bn : Int) - bd - 1
    let s : Int := 52 - e0
    if 0 ≤ s then ⟨(roundDivNat (n * 2^s.toNat) d : Int), -s⟩
    else ⟨(roundDivNat n (d * 2^(-s).toNat) : Int), -s⟩

/-- The rate 0.0875 used throughout the specification examples, as the
binary64 value the Go source's literal denotes. -/
def rate0875 : F64 := ratToF64 7 80

/-- Two's-complement wrap-around of Go int64 arithmetic. -/
def wrap64 (x : Int) : Int := (x + 2^63) % 2^64 - 2^63

/-- The exact rational value of a double (reference semantics only). -/
noncomputable def F64.toRat (f : F64) : ℚ := (f.m : ℚ) * (2:ℚ) ^ f.e

/-! ### Tax engine (internal/services/tax.go) -/

/-- Currency-tagged integer minor-unit amount (gocommerce money.Money). -/
structure Money where
  amount : Int
  currency : String
deriving DecidableEq, Repr

/-- A line item of a tax calculation request (gocommerce tax package). -/
structure TaxLineItem where
  id : String
  amount : Money
  quantity : Int
  isTaxable : Bool
deriving DecidableEq, Repr

/-- The address of a tax calculation request; Calculate reads only State. -/
structure TaxAddress where
  state : String
deriving DecidableEq, Repr

/-- An applied tax rate entry of the result. -/
structure AppliedTaxRate where
  name : String
  rate : F64
  jurisdiction : String
deriving DecidableEq, Repr

/-- Per-line tax of the result; the Go zero value (for skipped non-taxable
lines) is lineItemID "", amount 0 of currency "", no rates. -/
structure LineItemTax where
  lineItemID : String
  taxAmount : Money
  taxRates : List AppliedTaxRate
deriving DecidableEq, Repr

/-- Zero value of tax.LineItemTax, left in place for non-taxable lines. -/
def zeroLineItemTax : LineItemTax := ⟨"", ⟨0, ""⟩, []⟩

/-- tax.CalculationRequest, the fields Calculate reads. -/
structure CalculationRequest where
  lineItems : List TaxLineItem
  shippingCost : Money
  address : TaxAddress
deriving DecidableEq, Repr

/-- tax.CalculationResult. -/
structure CalculationResult where
  totalTax : Money
  taxRates : List AppliedTaxRate
  lineItemTaxes : List LineItemTax
  shippingTax : Money
deriving DecidableEq, Repr

/-- Go itemTotal := item.Amount.Amount * int64(item.Quantity), int64 wrap. -/
def goMulInt64 (a b : Int) : Int := wrap64 (a * b)

/-- Go int64(float64(x) * rate): convert to double, multiply as doubles,
truncate toward zero. -/
def f64MulTrunc (rate : F64) (x : Int) : Int := truncF64 (mulF64 (intToF64 x) rate)

/-- The currency Calculate picks: the first line item, else "USD". -/
def reqCurrency (items : List TaxLineItem) : String :=
  match items with
  | [] => "USD"
  | it :: _ => it.amount.currency

/-- One step of the line-item loop of Calculate: non-taxable lines are
skipped (their slot keeps the zero value), taxable lines add their wrapped
itemTotal to the running subtotal and fill their LineItemTax slot. -/
def calcStep (rate : F64) (currency state : String)
    (acc : Int × List LineItemTax) (item : TaxLineItem) : Int × List LineItemTax :=
  if item.isTaxable then
    let itemTotal := goMulInt64 item.amount.amount item.quantity
    let itemTax := f64MulTrunc rate itemTotal
    (wrap64 (acc.1 + itemTotal),
     acc.2 ++ [⟨item.id, ⟨itemTax, currency⟩, [⟨"Sales Tax", rate, state⟩]⟩])
  else
    (acc.1, acc.2 ++ [zeroLineItemTax])

/-- SimpleTaxCalculator.Calculate of internal/services/tax.go.  The Go
function always returns (result, nil); the Except codomain records that the
interface allows an error which this implementation never produces. -/
def Calculate (rate : F64) (req : CalculationRequest) : Except String CalculationResult :=
  let currency := reqCurrency req.lineItems
  let sub := req.lineItems.foldl (calcStep rate currency req.address.state) (0, [])
  let shippingTax := f64MulTrunc rate req.shippingCost.amount
  let totalTax := wrap64 (f64MulTrunc rate sub.1 + shippingTax)
  .ok { totalTax := ⟨totalTax, currency⟩,
        taxRates := [⟨"Sales Tax", rate, req.address.state⟩],
        lineItemTaxes := sub.2,
        shippingTax := ⟨shippingTax, currency⟩ }

/-- Aggregate taxable base, written the way the spec words it: the sum over
the lines whose isTaxable flag is set of amount × quantity (in int64
arithmetic, as the code performs it). -/
def taxableSubtotal (items : List TaxLineItem) : Int :=
  (items.filter (fun it => it.isTaxable)).foldl
    (fun s it => wrap64 (s + goMulInt64 it.amount.amount it.quantity)) 0

/-- Per-line results, written the way the spec words them: taxable lines get
their truncated double-product tax, non-taxable lines contribute zero. -/
def specLineTaxes (rate : F64) (currency state : String)
    (items : List TaxLineItem) : List LineItemTax :=
  items.map (fun it =>
    if it.isTaxable then
      ⟨it.id, ⟨f64MulTrunc rate (goMulInt64 it.amount.amount it.quantity), currency⟩,
       [⟨"Sales Tax", rate, state⟩]⟩
    else zeroLineItemTax)

/-! ### Catalog sale-price enrichment (internal/services/catalog.go) -/

/-- The fields of catalog.Product that enrichment transports. -/
structure Product where
  id : String
  sku : String
  name : String
deriving DecidableEq, Repr

/-- A pricing.ProductPrice as far as enrichment reads it: its Price. -/
structure ProductPrice where
  price : Money
deriving DecidableEq, Repr

/-- services.ProductResponse: a product plus an optional sale price. -/
structure ProductResponse where
  product : Product
  salePrice : Option Money
deriving DecidableEq, Repr

/-- A batch sale-price resolver: FindEffectivePrices, returning a map from
product id to its effective price, or an error. -/
def SalePriceResolver : Type := List String → Except String (String → Option ProductPrice)

/-- CatalogService.enrichWithSalePrices: without a resolver, or when the
resolver fails, every product is returned with no sale price; otherwise the
resolved map is consulted per product id. -/
def enrichWithSalePrices (resolver : Option SalePriceResolver)
    (products : List Product) : Except String (List ProductResponse) :=
  match resolver with
  | none => .ok (products.map (fun p => ⟨p, none⟩))
  | some f =>
    match f (products.map (fun p => p.id)) with
    | .error _ => .ok (products.map (fun p => ⟨p, none⟩))
    | .ok salePrices =>
      .ok (products.map (fun p =>
        match salePrices p.id with
        | some sp => ⟨p, some sp.price⟩
        | none => ⟨p, none⟩))

/-! ### Cart store (repository CartRepository)

Relational storage is modelled as lists of rows; primary keys are the id
fields and the store invariant is that key lists are duplicate-free.  GORM
Save on a row is an upsert by primary key; GORM Transaction is modelled by
explicit rollback in saveWithFail below. -/

/-- Domain cart.CartItem. -/
structure CartItem where
  id : String
  productId : String
  variantId : Option String
  sku : String
  name : String
  price : Money
  quantity : Int
  attributes : List (String × String)
  addedAt : Nat
deriving DecidableEq, Repr

/-- Domain cart.Cart. -/
structure Cart where
  id : String
  userId : String
  sessionId : String
  items : List CartItem
  createdAt : Nat
  updatedAt : Nat
  expiresAt : Option Nat
deriving DecidableEq, Repr

/-- database.Cart header row. -/
structure DBCart where
  id : String
  userId : String
  sessionId : String
  createdAt : Nat
  updatedAt : Nat
  expiresAt : Option Nat
deriving DecidableEq, Repr

/-- database.CartItem row of the normalized cart_items table. -/
structure DBCartItem where
  id : String
  cartId : String
  productId : String
  variantId : Option String
  sku : String
  name : String
  priceAmount : Int
  priceCurrency : String
  quantity : Int
  attributes : List (String × String)
  addedAt : Nat
deriving DecidableEq, Repr

/-- The relational store the cart repository works against. -/
structure Store where
  carts : List DBCart
  cartItems : List DBCartItem
deriving DecidableEq, Repr

/-- Upsert by key: replace the row holding the same key in place, else
append (GORM Save of a row whose primary key is set). -/
def upsertBy {α : Type} (key : α → String) (row : α) : List α → List α
  | [] => [row]
  | r :: rs => if key r = key row then row :: rs else r :: upsertBy key row rs

/-- Keys of a row list are duplicate-free (the primary-key invariant the
database enforces on the modelled tables). -/
def NodupKeys {α : Type} (key : α → String) (l : List α) : Prop := (l.map key).Nodup

instance {α : Type} (key : α → String) (l : List α) : Decidable (NodupKeys key l) :=
  List.nodupDecidable _

/-- CartRepository.toDatabase: header conversion; zero timestamps are
replaced by the current time. -/
def toDatabase (now : Nat) (c : Cart) : DBCart :=
  { id := c.id, userId := c.userId, sessionId := c.sessionId,
    createdAt := if c.createdAt = 0 then now else c.createdAt,
    updatedAt := if c.updatedAt = 0 then now else c.updatedAt,
    expiresAt := c.expiresAt }

/-- CartRepository.toDatabaseItem: item conversion; a zero AddedAt is
replaced by the current time.  The attributes JSON column is modelled by
its canonical structured value. -/
def toDatabaseItem (now : Nat) (cartID : String) (it : CartItem) : DBCartItem :=
  { id := it.id, cartId := cartID, productId := it.productId,
    variantId := it.variantId, sku := it.sku, name := it.name,
    priceAmount := it.price.amount, priceCurrency := it.price.currency,
    quantity := it.quantity, attributes := it.attributes,
    addedAt := if it.addedAt = 0 then now else it.addedAt }

/-- CartRepository.toDomainItem; unmarshalling the canonical attributes
value never fails in the model. -/
def toDomainItem (r : DBCartItem) : CartItem :=
  { id := r.id, productId := r.productId, variantId := r.variantId,
    sku := r.sku, name := r.name,
    price := ⟨r.priceAmount, r.priceCurrency⟩,
    quantity := r.quantity, attributes := r.attributes, addedAt := r.addedAt }

/-- Display order of loaded items: ORDER BY added_at ASC. -/
def itemRowLE (a b : DBCartItem) : Prop := a.addedAt ≤ b.addedAt

instance : DecidableRel itemRowLE := fun a b => Nat.decLe a.addedAt b.addedAt

/-- CartRepository.toDomain: load all item rows of the cart ordered by add
time and rebuild the aggregate. -/
def toDomain (s : Store) (row : DBCart) : Cart :=
  let rows := List.insertionSort itemRowLE (s.cartItems.filter (fun r => r.cartId = row.id))
  { id := row.id, userId := row.userId, sessionId := row.sessionId,
    items := rows.map toDomainItem,
    createdAt := row.createdAt, updatedAt := row.updatedAt,
    expiresAt := row.expiresAt }

/-- Cart-store error: cart.ErrCartNotFound when no header row matches. -/
inductive CartErr where
  | cartNotFound
deriving DecidableEq, Repr

/-- CartRepository.FindByID. -/
def findByID (s : Store) (id : String) : Except CartErr Cart :=
  match s.carts.find? (fun r => r.id = id) with
  | none => .error .cartNotFound
  | some row => .ok (toDomain s row)

/-- CartRepository.FindByUserID. -/
def findByUserID (s : Store) (userID : String) : Except CartErr Cart :=
  match s.carts.find? (fun r => r.userId = userID) with
  | none => .error .cartNotFound
  | some row => .ok (toDomain s row)

/-- CartRepository.FindBySessionID. -/
def findBySessionID (s : Store) (sessionID : String) : Except CartErr Cart :=
  match s.carts.find? (fun r => r.sessionId = sessionID) with
  | none => .error .cartNotFound
  | some row => .ok (toDomain s row)

/-- Pluck of the existing item ids of a cart from the item-row table. -/
def existingIDs (rows : List DBCartItem) (cid : String) : List String :=
  (rows.filter (fun r => r.cartId = cid)).map DBCartItem.id

/-- The item-upsert loop of Save: every current item is written as a full
overwrite of the row holding its id. -/
def upsertItems (now : Nat) (cid : String) (items : List CartItem)
    (rows : List DBCartItem) : List DBCartItem :=
  items.foldl (fun rows it => upsertBy DBCartItem.id (toDatabaseItem now cid it) rows) rows

/-- Stored item ids of the cart absent from the current item set. -/
def toDeleteIDs (rows : List DBCartItem) (c : Cart) : List String :=
  (existingIDs rows c.id).filter (fun i => ¬ (c.items.map CartItem.id).contains i)

/-- CartRepository.Save without storage failures: upsert the header, read
the existing item ids, upsert every current item, delete the stored item
ids absent from the current set.  The header upsert does not touch the
item-row table, so the Pluck of existing ids reads s.cartItems. -/
def save (now : Nat) (c : Cart) (s : Store) : Store :=
  let carts1 := upsertBy DBCart.id (toDatabase now c) s.carts
  let rows2 := upsertItems now c.id c.items s.cartItems
  let toDelete := toDeleteIDs s.cartItems c
  if toDelete.isEmpty then { carts := carts1, cartItems := rows2 }
  else { carts := carts1,
         cartItems := rows2.filter
           (fun r => ¬ (r.cartId = c.id ∧ toDelete.contains r.id)) }

/-- CartRepository.Delete: deletes the header row only; item rows are not
touched by Delete. -/
def deleteCart (s : Store) (id : String) : Store :=
  { s with carts := s.carts.filter (fun r => ¬ r.id = id) }

/-- A storage failure injected at one numbered operation of the Save
transaction body. -/
inductive DBErr where
  | fail
deriving DecidableEq, Repr

/-- Item upserts of the transaction body, numbered from k; the operation
whose number equals the injected failure point fails. -/
def upsertItemsOps (now : Nat) (cartID : String) (failAt : Option Nat) :
    Nat → List CartItem → List DBCartItem → Except DBErr (List DBCartItem)
  | _, [], rows => .ok rows
  | k, it :: its, rows =>
    if failAt = some k then .error .fail
    else upsertItemsOps now cartID failAt (k+1) its
      (upsertBy DBCartItem.id (toDatabaseItem now cartID it) rows)

/-- The transaction body of CartRepository.Save with failure injection:
operation 0 is the header upsert, operation 1 the Pluck of existing ids,
operations 2.. the item upserts, and the last operation the batch delete
(executed only when something is to delete, as in the source). -/
def txBody (now : Nat) (c : Cart) (failAt : Option Nat) (s : Store) : Except DBErr Store :=
  if failAt = some 0 then .error .fail
  else
    let carts1 := upsertBy DBCart.id (toDatabase now c) s.carts
    if failAt = some 1 then .error .fail
    else
      match upsertItemsOps now c.id failAt 2 c.items s.cartItems with
      | .error e => .error e
      | .ok rows =>
        let toDelete := toDeleteIDs s.cartItems c
        if toDelete.isEmpty then .ok { carts := carts1, cartItems := rows }
        else if failAt = some (2 + c.items.length) then .error .fail
        else
          .ok { carts := carts1,
                cartItems := rows.filter
                  (fun r => ¬ (r.cartId = c.id ∧ toDelete.contains r.id)) }

/-- CartRepository.Save under the GORM Transaction contract: if the body
fails at any operation the whole transaction is rolled back and the store
is handed back unchanged along with the error. -/
def saveWithFail (now : Nat) (c : Cart) (failAt : Option Nat) (s : Store) :
    Except DBErr Unit × Store :=
  match txBody now c failAt s with
  | .ok s2 => (.ok (), s2)
  | .error e => (.error e, s)

/-! ### Orders (internal/repository/orders.go and the order materializer)

The order repository converters below are embedded from
internal/repository/orders.go.  The JSON columns for the item snapshot and
the two addresses are modelled structurally (the column stores the
canonical structured value, Marshal/Unmarshal are the identity on it). -/

/-- An order address (gocommerce orders.Address, fields per the handler
conversion in internal/http/handlers/orders.go). -/
structure OrdAddress where
  firstName : String
  lastName : String
  company : String
  addressLine1 : String
  addressLine2 : String
  city : String
  state : String
  postalCode : String
  country : String
  phone : String
deriving DecidableEq, Repr

/-- A frozen order line (gocommerce orders.OrderItem): the identity and
price fields of a cart item captured at order creation. -/
structure OrderItem where
  productId : String
  sku : String
  name : String
  unitPrice : Money
  quantity : Int
deriving DecidableEq, Repr

/-- Domain gocommerce orders.Order, the fields the repository converters
transport. -/
structure Order where
  id : String
  orderNumber : String
  userId : String
  status : String
  items : List OrderItem
  shippingAddress : OrdAddress
  billingAddress : OrdAddress
  paymentMethodId : String
  subtotal : Money
  discountTotal : Money
  taxTotal : Money
  shippingTotal : Money
  total : Money
  notes : String
  ipAddress : String
  userAgent : String
  canceledAt : Option Nat
  createdAt : Nat
  updatedAt : Nat
deriving DecidableEq, Repr

/-- database.Order row: flat numeric total columns plus one currency
column. -/
structure DBOrder where
  id : String
  orderNumber : String
  userId : String
  status : String
  items : List OrderItem
  shippingAddress : OrdAddress
  billingAddress : OrdAddress
  paymentMethodId : String
  subtotal : Int
  discountTotal : Int
  taxTotal : Int
  shippingTotal : Int
  total : Int
  currency : String
  notes : String
  ipAddress : String
  userAgent : String
  cancelledAt : Option Nat
  createdAt : Nat
  updatedAt : Nat
deriving DecidableEq, Repr

/-- OrderRepository.toDomain: the single stored currency column is applied
to all five monetary totals on reload (database.Int64ToMoney). -/
def orderToDomain (r : DBOrder) : Order :=
  { id := r.id, orderNumber := r.orderNumber, userId := r.userId,
    status := r.status, items := r.items,
    shippingAddress := r.shippingAddress, billingAddress := r.billingAddress,
    paymentMethodId := r.paymentMethodId,
    subtotal := ⟨r.subtotal, r.currency⟩,
    discountTotal := ⟨r.discountTotal, r.currency⟩,
    taxTotal := ⟨r.taxTotal, r.currency⟩,
    shippingTotal := ⟨r.shippingTotal, r.currency⟩,
    total := ⟨r.total, r.currency⟩,
    notes := r.notes, ipAddress := r.ipAddress, userAgent := r.userAgent,
    canceledAt := r.cancelledAt, createdAt := r.createdAt, updatedAt := r.updatedAt }

/-- OrderRepository.toDatabase: the amounts are stored as flat int64
columns (database.MoneyToInt64) and the currency column is taken from the
grand total. -/
def orderToDatabase (o : Order) : DBOrder :=
  { id := o.id, orderNumber := o.orderNumber, userId := o.userId,
    status := o.status, items := o.items,
    shippingAddress := o.shippingAddress, billingAddress := o.billingAddress,
    paymentMethodId := o.paymentMethodId,
    subtotal := o.subtotal.amount,
    discountTotal := o.discountTotal.amount,
    taxTotal := o.taxTotal.amount,
    shippingTotal := o.shippingTotal.amount,
    total := o.total.amount,
    currency := o.total.currency,
    notes := o.notes, ipAddress := o.ipAddress, userAgent := o.userAgent,
    cancelledAt := o.canceledAt, createdAt := o.createdAt, updatedAt := o.updatedAt }

/-- Order-store state: the orders table. -/
structure OrdersStore where
  orders : List DBOrder
deriving DecidableEq, Repr

/-- The errors of the order materializer named by the spec. -/
inductive OrderError where
  | emptyCart
  | invalidAddress
  | currencyMismatch
deriving DecidableEq, Repr

/-- Required-field presence of a shipping address: the fields the handler
binding marks required (first/last name, address line 1, city, state,
postal code, country). -/
def hasRequiredFields (a : OrdAddress) : Bool :=
  ¬ a.firstName = "" ∧ ¬ a.lastName = "" ∧ ¬ a.addressLine1 = "" ∧
  ¬ a.city = "" ∧ ¬ a.state = "" ∧ ¬ a.postalCode = "" ∧ ¬ a.country = ""

/-- The request the handler builds for the order materializer. -/
structure CreateOrderRequest where
  cart : Cart
  userId : String
  shippingAddress : OrdAddress
  billingAddress : OrdAddress
  paymentMethodId : String
  notes : String
deriving DecidableEq, Repr

/-- Subtotal of a cart: sum of unit price times quantity over its items. -/
def cartSubtotal (items : List CartItem) : Int :=
  items.foldl (fun s it => s + it.price.amount * it.quantity) 0

/-- Currency of a cart, taken from its first item. -/
def cartCurrency : List CartItem → String
  | [] => "USD"
  | it :: _ => it.price.currency

/-- Freeze of the cart items into order-item snapshots. -/
def freezeItems (items : List CartItem) : List OrderItem :=
  items.map (fun it =>
    { productId := it.productId, sku := it.sku, name := it.name,
      unitPrice := it.price, quantity := it.quantity })

/-- Modelled from the spec: orders.Service.CreateFromCart of the external
gocommerce library is not part of this repository's sources (the
repository only wires it up in the services package), so the materializer
is modelled from spec section 4.4: an empty cart fails with EmptyCart and
persists nothing; a shipping address missing a required field fails with
InvalidAddress and persists nothing; a currency mismatch among the five
totals is a fatal error; otherwise the cart items are frozen into a
snapshot, grandTotal = subtotal - discountTotal + taxTotal +
shippingTotal in one shared currency, and exactly one new order row is
persisted.  The collaborator-computed discount, tax and shipping totals
are passed in, as are the generated id and order number and the clock. -/
def createFromCart (genId genOrderNumber : String) (discount tax shipping : Money)
    (req : CreateOrderRequest) (store : OrdersStore) (now : Nat) :
    Except OrderError Order × OrdersStore :=
  if req.cart.items.isEmpty then (.error .emptyCart, store)
  else if ¬ hasRequiredFields req.shippingAddress then (.error .invalidAddress, store)
  else
    let currency := cartCurrency req.cart.items
    if ¬ (discount.currency = currency ∧ tax.currency = currency ∧
          shipping.currency = currency) then
      (.error .currencyMismatch, store)
    else
      let subtotal : Money := ⟨cartSubtotal req.cart.items, currency⟩
      let grand : Money :=
        ⟨subtotal.amount - discount.amount + tax.amount + shipping.amount, currency⟩
      let order : Order :=
        { id := genId, orderNumber := genOrderNumber, userId := req.userId,
          status := "pending", items := freezeItems req.cart.items,
          shippingAddress := req.shippingAddress,
          billingAddress := req.billingAddress,
          paymentMethodId := req.paymentMethodId,
          subtotal := subtotal, discountTotal := discount, taxTotal := tax,
          shippingTotal := shipping, total := grand,
          notes := req.notes, ipAddress := "", userAgent := "",
          canceledAt := none, createdAt := now, updatedAt := now }
      (.ok order, ⟨store.orders ++ [orderToDatabase order]⟩)

/-- The HTTP outcomes of OrderHandler.CreateOrder that the claims compare. -/
inductive HandlerResp where
  | badRequest (msg : String)
  | created
  | internalError
deriving DecidableEq, Repr

/-- OrderHandler.CreateOrder of internal/http/handlers/orders.go, after
authentication and body binding: an empty cart is rejected before the
domain service is invoked; domain EmptyCart and InvalidAddress errors map
to bad-request responses; success maps to created. -/
def handleCreateOrder (genId genOrderNumber : String)
    (discount tax shipping : Money) (req : CreateOrderRequest)
    (store : OrdersStore) (now : Nat) : HandlerResp × OrdersStore :=
  if req.cart.items.length = 0 then (.badRequest ("Cart is empty"), store)
  else
    match createFromCart genId genOrderNumber discount tax shipping req store now with
    | (.ok _, st) => (.created, st)
    | (.error .emptyCart, st) => (.badRequest ("Cart is empty"), st)
    | (.error .invalidAddress, st) => (.badRequest ("Invalid address"), st)
    | (.error _, st) => (.internalError, st)


/-! ### Concrete data for instantiating the hypothesis-bearing theorems -/

/-- The stored header of cart c1. -/
def wHeader : DBCart := ⟨"c1", "u1", "s1", 1, 1, none⟩

/-- Stored item row A of cart c1. -/
def wRowA : DBCartItem :=
  ⟨"A", "c1", "pA", none, "SKU-A", "Item A", 1000, "USD", 1, [], 2⟩

/-- Stored item row B of cart c1. -/
def wRowB : DBCartItem :=
  ⟨"B", "c1", "pB", none, "SKU-B", "Item B", 2000, "USD", 1, [], 3⟩

/-- The prior store: cart c1 with stored item set A, B. -/
def wStore : Store := ⟨[wHeader], [wRowA, wRowB]⟩

/-- Desired item B, an in-place update of the stored row B. -/
def wItemB : CartItem :=
  ⟨"B", "pB", none, "SKU-B", "Item B", ⟨2500, "USD"⟩, 2, [], 3⟩

/-- Desired item C, not yet stored. -/
def wItemC : CartItem :=
  ⟨"C", "pC", none, "SKU-C", "Item C", ⟨300, "USD"⟩, 1, [], 9⟩

/-- The in-memory cart with desired item set B, C. -/
def wCart : Cart := ⟨"c1", "u1", "s1", [wItemB, wItemC], 1, 4, none⟩

/-- The same cart with zero items. -/
def wCartEmpty : Cart := ⟨"c1", "u1", "s1", [], 1, 4, none⟩

/-- A complete shipping address. -/
def wAddr : OrdAddress :=
  ⟨"Jane", "Doe", "", "1 Main St", "", "Springfield", "IL", "62701", "US", ""⟩

/-- A shipping address missing the required city field. -/
def wAddrBad : OrdAddress :=
  ⟨"Jane", "Doe", "", "1 Main St", "", "", "IL", "62701", "US", ""⟩

/-- A checkout request over the empty cart. -/
def wReqEmpty : CreateOrderRequest := ⟨wCartEmpty, "u1", wAddr, wAddr, "pm1", ""⟩

/-- A checkout request with an incomplete shipping address. -/
def wReqBadAddr : CreateOrderRequest := ⟨wCart, "u1", wAddrBad, wAddrBad, "pm1", ""⟩

/-- A well-formed checkout request. -/
def wReqGood : CreateOrderRequest := ⟨wCart, "u1", wAddr, wAddr, "pm1", ""⟩

/-- The empty order store. -/
def wOrdStore : OrdersStore := ⟨[]⟩

/-- The order the materializer produces from wReqGood with discount 100,
tax 437 and shipping 500: subtotal 2500·2 + 300·1 = 5300 and grand total
5300 − 100 + 437 + 500 = 6137. -/
def wC9order : Order :=
  ⟨"o1", "N0001", "u1", "pending", freezeItems wCart.items, wAddr, wAddr, "pm1",
   ⟨5300, "USD"⟩, ⟨100, "USD"⟩, ⟨437, "USD"⟩, ⟨500, "USD"⟩, ⟨6137, "USD"⟩,
   "", "", "", none, 7, 7⟩

/-- The line-item loop of Calculate computes the filtered taxable subtotal
and the per-line results of the spec-level description. -/
theorem calc_foldl_spec (rate : F64) (currency state : String) (items : List TaxLineItem)
    (acc : Int × List LineItemTax) :
    items.foldl (calcStep rate currency state) acc =
      ((items.filter (fun it => it.isTaxable)).foldl
         (fun s it => wrap64 (s + goMulInt64 it.amount.amount it.quantity)) acc.1,
       acc.2 ++ specLineTaxes rate currency state items) := by
  induction items generalizing acc with
  | nil => simp [specLineTaxes]
  | cons it its ih =>
    cases hx : it.isTaxable with
    | true => simp [List.foldl_cons, calcStep, hx, ih, specLineTaxes, List.filter_cons]
    | false => simp [List.foldl_cons, calcStep, hx, ih, specLineTaxes, List.filter_cons]

/-- C5 (amended form, proved below as calculate_totals_amended is the single
claim theorem): full characterization of Calculate. -/
theorem calculate_characterization (rate : F64) (req : CalculationRequest) :
    Calculate rate req = .ok
      { totalTax := ⟨wrap64 (f64MulTrunc rate (taxableSubtotal req.lineItems) +
                             f64MulTrunc rate req.shippingCost.amount),
                     reqCurrency req.lineItems⟩,
        taxRates := [⟨"Sales Tax", rate, req.address.state⟩],
        lineItemTaxes := specLineTaxes rate (reqCurrency req.lineItems)
                           req.address.state req.lineItems,
        shippingTax := ⟨f64MulTrunc rate req.shippingCost.amount,
                        reqCurrency req.lineItems⟩ } := by
  simp only [Calculate]
  rw [calc_foldl_spec]
  simp [taxableSubtotal]

/-! ### Row-list lemmas: upsert by primary key -/

theorem upsertBy_mem_self {α : Type} (key : α → String) (row : α) (l : List α) :
    row ∈ upsertBy key row l := by
  induction l with
  | nil => simp [upsertBy]
  | cons r rs ih =>
    by_cases h : key r = key row
    · simp [upsertBy, h]
    · simp only [upsertBy, if_neg h, List.mem_cons]
      exact Or.inr ih

theorem mem_upsertBy {α : Type} (key : α → String) (row : α) (l : List α)
    (hnd : NodupKeys key l) (a : α) :
    a ∈ upsertBy key row l ↔ a = row ∨ (a ∈ l ∧ key a ≠ key row) := by
  induction l with
  | nil => simp [upsertBy]
  | cons r rs ih =>
    have hnd' : NodupKeys key rs := (List.nodup_cons.mp hnd).2
    have hkr : key r ∉ rs.map key := (List.nodup_cons.mp hnd).1
    by_cases h : key r = key row
    · simp only [upsertBy, if_pos h, List.mem_cons]
      constructor
      · rintro (rfl | ha)
        · exact Or.inl rfl
        · refine Or.inr ⟨Or.inr ha, fun hk => ?_⟩
          exact hkr (h ▸ hk ▸ List.mem_map_of_mem key ha)
      · rintro (rfl | ⟨rfl | ha, hne⟩)
        · exact Or.inl rfl
        · exact absurd h hne
        · exact Or.inr ha
    · simp only [upsertBy, if_neg h, List.mem_cons, ih hnd']
      constructor
      · rintro (rfl | rfl | ⟨ha, hne⟩)
        · exact Or.inr ⟨Or.inl rfl, h⟩
        · exact Or.inl rfl
        · exact Or.inr ⟨Or.inr ha, hne⟩
      · rintro (rfl | ⟨rfl | ha, hne⟩)
        · exact Or.inr (Or.inl rfl)
        · exact Or.inl rfl
        · exact Or.inr (Or.inr ⟨ha, hne⟩)

theorem keys_upsertBy {α : Type} (key : α → String) (row : α) (l : List α) :
    (upsertBy key row l).map key =
      if key row ∈ l.map key then l.map key else l.map key ++ [key row] := by
  induction l with
  | nil => simp [upsertBy]
  | cons r rs ih =>
    by_cases h : key r = key row
    · simp [upsertBy, h]
    · have hne : key row ≠ key r := fun hx => h hx.symm
      by_cases hm : key row ∈ rs.map key
      · simp [upsertBy, if_neg h, ih, hm, hne]
      · simp [upsertBy, if_neg h, ih, hm, hne]

theorem nodupKeys_upsertBy {α : Type} (key : α → String) (row : α) (l : List α)
    (hnd : NodupKeys key l) : NodupKeys key (upsertBy key row l) := by
  unfold NodupKeys
  rw [keys_upsertBy]
  by_cases hm : key row ∈ l.map key
  · simpa [hm] using hnd
  · simp only [if_neg hm]
    simp only [List.nodup_append, List.nodup_singleton, true_and]
    exact ⟨hnd, by simpa using hm⟩

theorem upsertBy_of_mem {α : Type} (key : α → String) (row : α) (l : List α)
    (hnd : NodupKeys key l) (hmem : row ∈ l) : upsertBy key row l = l := by
  induction l with
  | nil => cases hmem
  | cons r rs ih =>
    have hnd' : NodupKeys key rs := (List.nodup_cons.mp hnd).2
    have hkr : key r ∉ rs.map key := (List.nodup_cons.mp hnd).1
    rcases List.mem_cons.mp hmem with rfl | hmem'
    · simp [upsertBy]
    · have h : key r ≠ key row := by
        intro hx
        exact hkr (hx ▸ List.mem_map_of_mem key hmem')
      simp [upsertBy, if_neg h, ih hnd' hmem']

theorem upsertBy_idem {α : Type} (key : α → String) (row : α) (l : List α) :
    upsertBy key row (upsertBy key row l) = upsertBy key row l := by
  induction l with
  | nil => simp [upsertBy]
  | cons r rs ih =>
    by_cases h : key r = key row
    · simp [upsertBy, h]
    · simp [upsertBy, if_neg h, ih]

theorem nodupKeys_upsertItems (now : Nat) (cid : String) (items : List CartItem)
    (rows : List DBCartItem) (hnd : NodupKeys DBCartItem.id rows) :
    NodupKeys DBCartItem.id (upsertItems now cid items rows) := by
  induction items generalizing rows with
  | nil => exact hnd
  | cons it its ih => exact ih _ (nodupKeys_upsertBy _ _ _ hnd)

theorem mem_upsertItems (now : Nat) (cid : String) (items : List CartItem)
    (rows : List DBCartItem) (hnd : NodupKeys DBCartItem.id rows)
    (hids : (items.map CartItem.id).Nodup) (r : DBCartItem) :
    r ∈ upsertItems now cid items rows ↔
      (∃ it ∈ items, r = toDatabaseItem now cid it) ∨
      (r ∈ rows ∧ r.id ∉ items.map CartItem.id) := by
  induction items generalizing rows with
  | nil => simp [upsertItems]
  | cons it its ih =>
    have hnd' := nodupKeys_upsertBy DBCartItem.id (toDatabaseItem now cid it) rows hnd
    have hids' : (its.map CartItem.id).Nodup := (List.nodup_cons.mp hids).2
    have hhd : it.id ∉ its.map CartItem.id := (List.nodup_cons.mp hids).1
    have step : upsertItems now cid (it :: its) rows =
        upsertItems now cid its (upsertBy DBCartItem.id (toDatabaseItem now cid it) rows) := rfl
    rw [step, ih _ hnd' hids', mem_upsertBy _ _ _ hnd r]
    constructor
    · rintro (⟨j, hj, rfl⟩ | ⟨hmem, hnotin⟩)
      · exact Or.inl ⟨j, List.mem_cons_of_mem _ hj, rfl⟩
      · rcases hmem with rfl | ⟨hrow, hne⟩
        · exact Or.inl ⟨it, List.mem_cons_self _ _, rfl⟩
        · refine Or.inr ⟨hrow, ?_⟩
          simp only [List.map_cons, List.mem_cons]
          rintro (h1 | h2)
          · exact hne h1
          · exact hnotin h2
    · rintro (⟨j, hj, rfl⟩ | ⟨hrow, hnotin⟩)
      · rcases List.mem_cons.mp hj with rfl | hj'
        · refine Or.inr ⟨Or.inl rfl, ?_⟩
          show j.id ∉ its.map CartItem.id
          exact hhd
        · exact Or.inl ⟨j, hj', rfl⟩
      · have h1 : r.id ≠ it.id := fun hx => hnotin (by simp [hx])

        have h2 : r.id ∉ its.map CartItem.id := fun hx => hnotin (by simp [hx])
        exact Or.inr ⟨Or.inr ⟨hrow, h1⟩, h2⟩

theorem upsertItems_of_mem (now : Nat) (cid : String) (items : List CartItem)
    (rows : List DBCartItem) (hnd : NodupKeys DBCartItem.id rows)
    (h : ∀ it ∈ items, toDatabaseItem now cid it ∈ rows) :
    upsertItems now cid items rows = rows := by
  induction items with
  | nil => rfl
  | cons it its ih =>
    have h1 : upsertBy DBCartItem.id (toDatabaseItem now cid it) rows = rows :=
      upsertBy_of_mem _ _ _ hnd (h it (List.mem_cons_self _ _))
    show upsertItems now cid its
      (upsertBy DBCartItem.id (toDatabaseItem now cid it) rows) = rows
    rw [h1]
    exact ih (fun j hj => h j (List.mem_cons_of_mem _ hj))

/-! ### Characterization of Save -/

theorem save_carts (now : Nat) (c : Cart) (s : Store) :
    (save now c s).carts = upsertBy DBCart.id (toDatabase now c) s.carts := by
  simp only [save]
  split <;> rfl

theorem mem_existingIDs (rows : List DBCartItem) (cid : String) (i : String) :
    i ∈ existingIDs rows cid ↔ ∃ r ∈ rows, r.cartId = cid ∧ r.id = i := by
  unfold existingIDs
  constructor
  · intro h
    rcases List.mem_map.mp h with ⟨r, hr, rfl⟩
    rcases List.mem_filter.mp hr with ⟨hmem, hc⟩
    exact ⟨r, hmem, by simpa using hc, rfl⟩
  · rintro ⟨r, hmem, hc, rfl⟩
    exact List.mem_map_of_mem _ (List.mem_filter.mpr ⟨hmem, by simp [hc]⟩)

theorem mem_toDeleteIDs (rows : List DBCartItem) (c : Cart) (i : String) :
    i ∈ toDeleteIDs rows c ↔
      i ∈ existingIDs rows c.id ∧ i ∉ c.items.map CartItem.id := by
  unfold toDeleteIDs
  rw [List.mem_filter]
  simp

theorem mem_save_items (now : Nat) (c : Cart) (s : Store)
    (hnd : NodupKeys DBCartItem.id s.cartItems)
    (hids : (c.items.map CartItem.id).Nodup) (r : DBCartItem) :
    r ∈ (save now c s).cartItems ↔
      (∃ it ∈ c.items, r = toDatabaseItem now c.id it) ∨
      (r ∈ s.cartItems ∧ r.id ∉ c.items.map CartItem.id ∧ r.cartId ≠ c.id) := by
  have hmem := mem_upsertItems now c.id c.items s.cartItems hnd hids
  simp only [save]
  split
  case isTrue hEmpty =>
    rw [hmem r]
    have hdel : ∀ i ∈ existingIDs s.cartItems c.id, i ∈ c.items.map CartItem.id := by
      intro i hi
      have h0 := List.isEmpty_iff.mp hEmpty
      unfold toDeleteIDs at h0
      rw [List.filter_eq_nil_iff] at h0
      have h2 := h0 i hi
      simpa using h2
    constructor
    · rintro (hA | ⟨hrow, hnotin⟩)
      · exact Or.inl hA
      · refine Or.inr ⟨hrow, hnotin, fun hcid => ?_⟩
        exact hnotin (hdel _ ((mem_existingIDs _ _ _).mpr ⟨r, hrow, hcid, rfl⟩))
    · rintro (hA | ⟨hrow, hnotin, _⟩)
      · exact Or.inl hA
      · exact Or.inr ⟨hrow, hnotin⟩
  case isFalse hNE =>
    rw [List.mem_filter, hmem r]
    constructor
    · rintro ⟨hA | ⟨hrow, hnotin⟩, hkeep⟩
      · exact Or.inl hA
      · refine Or.inr ⟨hrow, hnotin, fun hcid => ?_⟩
        have htd : r.id ∈ toDeleteIDs s.cartItems c :=
          (mem_toDeleteIDs _ _ _).mpr
            ⟨(mem_existingIDs _ _ _).mpr ⟨r, hrow, hcid, rfl⟩, hnotin⟩
        simp [hcid, htd] at hkeep
    · rintro (hA | ⟨hrow, hnotin, hcid⟩)
      · rcases hA with ⟨it, hit, rfl⟩
        refine ⟨Or.inl ⟨it, hit, rfl⟩, ?_⟩
        have hdes : it.id ∈ c.items.map CartItem.id := List.mem_map_of_mem _ hit
        have hnd2 : (toDatabaseItem now c.id it).id ∉ toDeleteIDs s.cartItems c := by
          intro hx
          exact ((mem_toDeleteIDs _ _ _).mp hx).2 hdes
        simp [hnd2]
      · refine ⟨Or.inr ⟨hrow, hnotin⟩, ?_⟩
        simp [hcid]

theorem nodupKeys_save_items (now : Nat) (c : Cart) (s : Store)
    (hnd : NodupKeys DBCartItem.id s.cartItems) :
    NodupKeys DBCartItem.id (save now c s).cartItems := by
  have h1 := nodupKeys_upsertItems now c.id c.items s.cartItems hnd
  simp only [save]
  split
  · exact h1
  · exact ((List.filter_sublist _).map DBCartItem.id).nodup h1

theorem save_cart_rows (now : Nat) (c : Cart) (s : Store)
    (hnd : NodupKeys DBCartItem.id s.cartItems)
    (hids : (c.items.map CartItem.id).Nodup) :
    ((save now c s).cartItems.filter (fun r => r.cartId = c.id)).Perm
      (c.items.map (toDatabaseItem now c.id)) := by
  have hnd' := nodupKeys_save_items now c s hnd
  have h1 : ((save now c s).cartItems.filter (fun r => r.cartId = c.id)).Nodup :=
    (hnd'.of_map DBCartItem.id).filter _
  have h2 : (c.items.map (toDatabaseItem now c.id)).Nodup := by
    apply List.Nodup.of_map DBCartItem.id
    rw [List.map_map]
    exact hids
  rw [List.perm_ext_iff_of_nodup h1 h2]
  intro a
  rw [List.mem_filter, mem_save_items now c s hnd hids a]
  constructor
  · rintro ⟨hA | ⟨_, _, hne⟩, hcid⟩
    · rcases hA with ⟨it, hit, rfl⟩
      exact List.mem_map_of_mem _ hit
    · exact absurd (by simpa using hcid) hne
  · intro hmem
    rcases List.mem_map.mp hmem with ⟨it, hit, rfl⟩
    exact ⟨Or.inl ⟨it, hit, rfl⟩, by simp [toDatabaseItem]⟩

theorem toDomainItem_toDatabaseItem (now : Nat) (cid : String) (it : CartItem)
    (h : it.addedAt ≠ 0) : toDomainItem (toDatabaseItem now cid it) = it := by
  cases it with
  | mk id productId variantId sku name price quantity attributes addedAt =>
    cases price with
    | mk amount currency =>
      simp only [toDomainItem, toDatabaseItem] at h ⊢
      simp [if_neg h]

theorem toDomain_items_perm (now : Nat) (c : Cart) (s : Store)
    (hnd : NodupKeys DBCartItem.id s.cartItems)
    (hids : (c.items.map CartItem.id).Nodup)
    (hadd : ∀ it ∈ c.items, it.addedAt ≠ 0)
    (row : DBCart) (hrow : row.id = c.id) :
    (toDomain (save now c s) row).items.Perm c.items := by
  have hsorted : (List.insertionSort itemRowLE
      ((save now c s).cartItems.filter (fun r => r.cartId = row.id))).Perm
      ((save now c s).cartItems.filter (fun r => r.cartId = row.id)) :=
    List.perm_insertionSort _ _
  have hfilter := save_cart_rows now c s hnd hids
  show ((List.insertionSort itemRowLE
      ((save now c s).cartItems.filter (fun r => r.cartId = row.id))).map
        toDomainItem).Perm c.items
  rw [hrow] at hsorted ⊢
  have hchain : (List.insertionSort itemRowLE
      ((save now c s).cartItems.filter (fun r => r.cartId = c.id))).Perm
      (c.items.map (toDatabaseItem now c.id)) := hsorted.trans hfilter
  have hmap := hchain.map toDomainItem
  have hround : (c.items.map (toDatabaseItem now c.id)).map toDomainItem = c.items := by
    rw [List.map_map]
    have h2 : ∀ it ∈ c.items, (toDomainItem ∘ toDatabaseItem now c.id) it = id it :=
      fun it hit => toDomainItem_toDatabaseItem now c.id it (hadd it hit)
    rw [List.map_congr_left h2, List.map_id]
  rw [hround] at hmap
  exact hmap

/-- C1: after Save succeeds, a subsequent FindByID, FindByUserID or
FindBySessionID returns a cart whose item set is exactly the saved item
set: common items were overwritten in place, new items inserted, absent
items deleted.  Hypotheses: the stored item rows and the headers satisfy
the primary-key invariant, the item ids of the cart are unique (a cart
invariant), the items carry a nonzero AddedAt, and the saved cart is the
only header with its user id and session id (so the owner-keyed finds
locate it). -/
theorem C1_save_reconciliation (now : Nat) (c : Cart) (s : Store)
    (hnd : NodupKeys DBCartItem.id s.cartItems)
    (hck : NodupKeys DBCart.id s.carts)
    (hids : (c.items.map CartItem.id).Nodup)
    (hadd : ∀ it ∈ c.items, it.addedAt ≠ 0)
    (huser : ∀ r ∈ s.carts, r.userId = c.userId → r.id = c.id)
    (hsess : ∀ r ∈ s.carts, r.sessionId = c.sessionId → r.id = c.id) :
    (∃ c1, findByID (save now c s) c.id = .ok c1 ∧ c1.items.Perm c.items) ∧
    (∃ c2, findByUserID (save now c s) c.userId = .ok c2 ∧ c2.items.Perm c.items) ∧
    (∃ c3, findBySessionID (save now c s) c.sessionId = .ok c3 ∧ c3.items.Perm c.items) := by
  have hhdrmem : toDatabase now c ∈ (save now c s).carts := by
    rw [save_carts]
    exact upsertBy_mem_self _ _ _
  have hmemup : ∀ r ∈ (save now c s).carts,
      r = toDatabase now c ∨ (r ∈ s.carts ∧ r.id ≠ c.id) := by
    intro r hr
    rw [save_carts] at hr
    rcases (mem_upsertBy DBCart.id (toDatabase now c) s.carts hck r).mp hr with h | ⟨h1, h2⟩
    · exact Or.inl h
    · exact Or.inr ⟨h1, h2⟩
  refine ⟨?_, ?_, ?_⟩
  · have hex : ((save now c s).carts.find? (fun r => r.id = c.id)).isSome := by
      rw [List.find?_isSome]
      exact ⟨toDatabase now c, hhdrmem, by simp [toDatabase]⟩
    rcases Option.isSome_iff_exists.mp hex with ⟨row, hrow⟩
    have hpid : row.id = c.id := by simpa using List.find?_some hrow
    refine ⟨toDomain (save now c s) row, ?_, ?_⟩
    · simp only [findByID, hrow]
    · exact toDomain_items_perm now c s hnd hids hadd row hpid
  · have hex : ((save now c s).carts.find? (fun r => r.userId = c.userId)).isSome := by
      rw [List.find?_isSome]
      exact ⟨toDatabase now c, hhdrmem, by simp [toDatabase]⟩
    rcases Option.isSome_iff_exists.mp hex with ⟨row, hrow⟩
    have hprop : row.userId = c.userId := by simpa using List.find?_some hrow
    have hmem : row ∈ (save now c s).carts := List.mem_of_find?_eq_some hrow
    have hpid : row.id = c.id := by
      rcases hmemup row hmem with rfl | ⟨h1, h2⟩
      · rfl
      · exact absurd (huser row h1 hprop) h2
    refine ⟨toDomain (save now c s) row, ?_, ?_⟩
    · simp only [findByUserID, hrow]
    · exact toDomain_items_perm now c s hnd hids hadd row hpid
  · have hex : ((save now c s).carts.find? (fun r => r.sessionId = c.sessionId)).isSome := by
      rw [List.find?_isSome]
      exact ⟨toDatabase now c, hhdrmem, by simp [toDatabase]⟩
    rcases Option.isSome_iff_exists.mp hex with ⟨row, hrow⟩
    have hprop : row.sessionId = c.sessionId := by simpa using List.find?_some hrow
    have hmem : row ∈ (save now c s).carts := List.mem_of_find?_eq_some hrow
    have hpid : row.id = c.id := by
      rcases hmemup row hmem with rfl | ⟨h1, h2⟩
      · rfl
      · exact absurd (hsess row h1 hprop) h2
    refine ⟨toDomain (save now c s) row, ?_, ?_⟩
    · simp only [findBySessionID, hrow]
    · exact toDomain_items_perm now c s hnd hids hadd row hpid

/-! ### Idempotence, atomicity and frame properties of Save and Delete -/

theorem save_items_def (now : Nat) (c : Cart) (s : Store) :
    (save now c s).cartItems =
      (if (toDeleteIDs s.cartItems c).isEmpty then
        upsertItems now c.id c.items s.cartItems
       else (upsertItems now c.id c.items s.cartItems).filter
         (fun r => ¬ (r.cartId = c.id ∧ (toDeleteIDs s.cartItems c).contains r.id))) := by
  simp only [save]
  split <;> rfl

/-- C3: Save applied twice with the cart unchanged between the calls leaves
storage identical to one Save: no duplicate item rows, no spurious deletes.
Hypotheses: the stored item rows satisfy the primary-key invariant and the
item ids of the cart are unique. -/
theorem C3_save_idempotent (now : Nat) (c : Cart) (s : Store)
    (hnd : NodupKeys DBCartItem.id s.cartItems)
    (hids : (c.items.map CartItem.id).Nodup) :
    save now c (save now c s) = save now c s := by
  have hnd' := nodupKeys_save_items now c s hnd
  have hmemall : ∀ it ∈ c.items, toDatabaseItem now c.id it ∈ (save now c s).cartItems := by
    intro it hit
    rw [mem_save_items now c s hnd hids]
    exact Or.inl ⟨it, hit, rfl⟩
  have hup : upsertItems now c.id c.items (save now c s).cartItems = (save now c s).cartItems :=
    upsertItems_of_mem _ _ _ _ hnd' hmemall
  have htd : toDeleteIDs (save now c s).cartItems c = [] := by
    unfold toDeleteIDs
    rw [List.filter_eq_nil_iff]
    intro i hi
    rcases (mem_existingIDs _ _ _).mp hi with ⟨r, hrmem, hcid, rfl⟩
    rw [mem_save_items now c s hnd hids] at hrmem
    rcases hrmem with ⟨it, hit, rfl⟩ | ⟨_, _, hne⟩
    · have hm : it.id ∈ c.items.map CartItem.id := List.mem_map_of_mem _ hit
      simp only [toDatabaseItem]
      simp [hm]
    · exact absurd hcid hne
  have hcarts : (save now c (save now c s)).carts = (save now c s).carts := by
    rw [save_carts, save_carts, upsertBy_idem]
  have hitems : (save now c (save now c s)).cartItems = (save now c s).cartItems := by
    rw [save_items_def now c (save now c s), hup, htd]
    simp
  calc save now c (save now c s)
      = ⟨(save now c (save now c s)).carts, (save now c (save now c s)).cartItems⟩ := rfl
    _ = ⟨(save now c s).carts, (save now c s).cartItems⟩ := by rw [hcarts, hitems]
    _ = save now c s := rfl

theorem upsertItemsOps_ok (now : Nat) (cid : String) (failAt : Option Nat) :
    ∀ (its : List CartItem) (k : Nat) (rows out : List DBCartItem),
      upsertItemsOps now cid failAt k its rows = .ok out →
      out = upsertItems now cid its rows := by
  intro its
  induction its with
  | nil =>
    intro k rows out h
    cases h
    rfl
  | cons it its ih =>
    intro k rows out h
    unfold upsertItemsOps at h
    split at h
    · cases h
    · exact ih (k+1) _ out h

theorem upsertItemsOps_none (now : Nat) (cid : String) :
    ∀ (its : List CartItem) (k : Nat) (rows : List DBCartItem),
      upsertItemsOps now cid none k its rows = .ok (upsertItems now cid its rows) := by
  intro its
  induction its with
  | nil => intro k rows; rfl
  | cons it its ih =>
    intro k rows
    unfold upsertItemsOps
    simp only [reduceCtorEq, if_false]
    exact ih (k+1) _

theorem txBody_ok (now : Nat) (c : Cart) (failAt : Option Nat) (s : Store) (s2 : Store)
    (h : txBody now c failAt s = .ok s2) : s2 = save now c s := by
  unfold txBody at h
  split at h
  · cases h
  · split at h
    · cases h
    · split at h
      · cases h
      · rename_i rows hops
        have hrows := upsertItemsOps_ok now c.id failAt c.items 2 s.cartItems rows hops
        dsimp only at h
        split at h
        · rename_i hcond
          injection h with h2
          simp only [save]
          rw [if_pos hcond, ← h2, hrows]
        · rename_i hcond
          split at h
          · cases h
          · injection h with h2
            simp only [save]
            rw [if_neg hcond, ← h2, hrows]

theorem txBody_none (now : Nat) (c : Cart) (s : Store) :
    txBody now c none s = .ok (save now c s) := by
  unfold txBody
  simp only [reduceCtorEq, if_false]
  rw [upsertItemsOps_none now c.id c.items 2 s.cartItems]
  simp only [save]
  split
  · rfl
  · simp only [reduceCtorEq, if_false]

/-- C2: the header upsert, the item upserts and the deletions of Save run
in one all-or-nothing transaction: a run with no storage failure commits
exactly the reconciled state, and a failure injected at any numbered
operation of the transaction body returns the error with the stored rows
exactly as before the call. -/
theorem C2_save_transaction_atomic (now : Nat) (c : Cart) (failAt : Option Nat) (s : Store) :
    saveWithFail now c none s = (.ok (), save now c s) ∧
    (saveWithFail now c failAt s = (.ok (), save now c s) ∨
     saveWithFail now c failAt s = (.error .fail, s)) := by
  constructor
  · unfold saveWithFail
    rw [txBody_none]
  · unfold saveWithFail
    cases htx : txBody now c failAt s with
    | ok s2 => left; rw [txBody_ok now c failAt s s2 htx]
    | error e => right; cases e; rfl

/-- C4: saving a cart whose item list is empty keeps (upserts) the header
row and deletes exactly the item rows of that cart; item rows of other
carts are untouched. -/
theorem C4_save_zero_items (now : Nat) (c : Cart) (s : Store) (h : c.items = []) :
    (save now c s).carts = upsertBy DBCart.id (toDatabase now c) s.carts ∧
    toDatabase now c ∈ (save now c s).carts ∧
    (save now c s).cartItems = s.cartItems.filter (fun r => ¬ r.cartId = c.id) := by
  refine ⟨save_carts now c s, ?_, ?_⟩
  · rw [save_carts]
    exact upsertBy_mem_self _ _ _
  · rw [save_items_def]
    have hupnil : upsertItems now c.id c.items s.cartItems = s.cartItems := by
      rw [h]; rfl
    rw [hupnil]
    split
    case isTrue hcond =>
      have htd : toDeleteIDs s.cartItems c = [] := List.isEmpty_iff.mp hcond
      have hex : existingIDs s.cartItems c.id = [] := by
        unfold toDeleteIDs at htd
        rw [List.filter_eq_nil_iff] at htd
        by_contra hne
        rcases List.exists_mem_of_ne_nil _ hne with ⟨i, hi⟩
        have := htd i hi
        simp [h] at this
      have hnone : ∀ r ∈ s.cartItems, ¬ r.cartId = c.id := by
        intro r hr hcid
        have : r.id ∈ existingIDs s.cartItems c.id :=
          (mem_existingIDs _ _ _).mpr ⟨r, hr, hcid, rfl⟩
        rw [hex] at this
        cases this
      symm
      apply List.filter_eq_self.mpr
      intro r hr
      simpa using hnone r hr
    case isFalse hcond =>
      apply List.filter_congr
      intro r hr
      apply decide_eq_decide.mpr
      constructor
      · intro hn hcid
        apply hn
        refine ⟨hcid, ?_⟩
        have hmem : r.id ∈ toDeleteIDs s.cartItems c := by
          rw [mem_toDeleteIDs]
          refine ⟨(mem_existingIDs _ _ _).mpr ⟨r, hr, hcid, rfl⟩, ?_⟩
          simp [h]
        simpa using hmem
      · rintro hn ⟨hcid, _⟩
        exact hn hcid

/-- C10: CartRepository.Delete removes only the cart header row: the
cart_items record set is left completely unchanged, every header row of a
different id survives, and a subsequent FindByID of the deleted cart
reports cart-not-found. -/
theorem C10_cart_delete_frame (s : Store) (id : String) :
    (deleteCart s id).cartItems = s.cartItems ∧
    (deleteCart s id).carts = s.carts.filter (fun r => ¬ r.id = id) ∧
    findByID (deleteCart s id) id = .error .cartNotFound := by
  refine ⟨rfl, rfl, ?_⟩
  unfold findByID
  have hnone : (deleteCart s id).carts.find? (fun r => r.id = id) = none := by
    rw [List.find?_eq_none]
    intro r hr
    have h2 := (List.mem_filter.mp hr).2
    simpa using h2
  rw [hnone]

/-! ### Claim theorems for the tax engine and order materializer -/

/-- C5 (amended): in Calculate, a line's base (unit amount × quantity, in
int64 arithmetic) enters the aggregate taxable base exactly when its
isTaxable flag is set, non-taxable lines contribute a zero per-line tax,
and totalTax is the truncation toward zero of the double-precision product
of the taxable subtotal with the rate plus the truncation of the
double-precision product of the shipping cost with the rate — the
shipping component also reported separately as shippingTax.  (The spec's
floor-of-exact-product formula is refuted below; truncation of the
binary64 product is what the code computes.) -/
theorem C5_calculate_totals_amended (rate : F64) (req : CalculationRequest) :
    ∃ res, Calculate rate req = .ok res ∧
      res.totalTax.amount =
        wrap64 (f64MulTrunc rate (taxableSubtotal req.lineItems) +
                f64MulTrunc rate req.shippingCost.amount) ∧
      res.shippingTax.amount = f64MulTrunc rate req.shippingCost.amount ∧
      res.lineItemTaxes = specLineTaxes rate (reqCurrency req.lineItems)
        req.address.state req.lineItems :=
  ⟨_, calculate_characterization rate req, rfl, rfl, rfl⟩

/-- C5 (counterexample): the claimed formula totalTax =
floor(sum(taxable bases) × rate) + floor(shippingCost × rate) fails on the
code at one taxable line of base 720 (quantity 1), zero shipping, rate
0.0875: the formula gives 63, Calculate returns 62.  The last two
conjuncts show the alternative reading (the rate as the exact binary64
value 6305039478318694·2⁻⁵⁶) fails too, already at base 10000, where the
code returns 875 but the floor of the exact product is 874. -/
theorem C5_floor_formula_counterexample :
    (Calculate rate0875 ⟨[⟨"L1", ⟨720, "USD"⟩, 1, true⟩], ⟨0, "USD"⟩, ⟨"CA"⟩⟩).map
        (fun r => r.totalTax.amount) = .ok 62 ∧
    (⌊((720 * 1 : ℚ)) * (7/80)⌋ + ⌊(0 : ℚ) * (7/80)⌋ : ℤ) = 63 ∧
    (62 : ℤ) ≠ 63 ∧
    rate0875 = ⟨6305039478318694, -56⟩ ∧
    (Calculate rate0875 ⟨[⟨"L2", ⟨10000, "USD"⟩, 1, true⟩], ⟨0, "USD"⟩, ⟨"CA"⟩⟩).map
        (fun r => r.totalTax.amount) = .ok 875 ∧
    (⌊(10000 : ℚ) * ((6305039478318694 : ℚ) / 2 ^ 56)⌋ : ℤ) = 874 := by
  refine ⟨rfl, ?_, by decide, by decide, rfl, ?_⟩
  · have h1 : ((720 * 1 : ℚ)) * (7/80) = 63 := by norm_num
    have h2 : ((0 : ℚ)) * (7/80) = 0 := by norm_num
    rw [h1, h2]
    simp
  · rw [Int.floor_eq_iff]
    constructor
    · norm_num
    · norm_num

/-- C6: the monetary truncation instances at rate 0.0875: one taxable line
of base 10000 and zero shipping yields tax 875; two taxable lines of bases
20000 and 5000 yield 2187 (truncation of 2187.5, not 2188); zero line
items with shipping 1000 yield totalTax 87 and shippingTax 87. -/
theorem C6_monetary_truncation_instances :
    (Calculate rate0875 ⟨[⟨"1", ⟨10000, "USD"⟩, 1, true⟩], ⟨0, "USD"⟩, ⟨"NY"⟩⟩).map
        (fun r => r.totalTax.amount) = .ok 875 ∧
    (Calculate rate0875 ⟨[⟨"1", ⟨20000, "USD"⟩, 1, true⟩, ⟨"2", ⟨5000, "USD"⟩, 1, true⟩],
        ⟨0, "USD"⟩, ⟨"NY"⟩⟩).map (fun r => r.totalTax.amount) = .ok 2187 ∧
    (Calculate rate0875 ⟨[], ⟨1000, "USD"⟩, ⟨"NY"⟩⟩).map
        (fun r => (r.totalTax.amount, r.shippingTax.amount)) = .ok (87, 87) :=
  ⟨rfl, rfl, rfl⟩

/-- C7: tax Calculate returns a nil error for every structurally valid
request, and a failure of the optional sale-price resolver is swallowed:
enrichment returns the products without sale prices (as it does when the
resolver is absent) instead of aborting the caller. -/
theorem C7_degrade_not_fail :
    (∀ (rate : F64) (req : CalculationRequest), ∃ res, Calculate rate req = .ok res) ∧
    (∀ (f : SalePriceResolver) (products : List Product) (e : String),
        f (products.map (fun p => p.id)) = .error e →
        enrichWithSalePrices (some f) products =
          .ok (products.map (fun p => ⟨p, none⟩))) ∧
    (∀ products : List Product,
        enrichWithSalePrices none products =
          .ok (products.map (fun p => ⟨p, none⟩))) := by
  refine ⟨fun rate req => ⟨_, calculate_characterization rate req⟩, ?_, fun _ => rfl⟩
  intro f products e hf
  simp only [enrichWithSalePrices]
  rw [hf]

/-- C7 witness: a concrete resolver failure on a one-product list is
swallowed and the product comes back without a sale price. -/
theorem C7_degrade_not_fail_witness :
    ((fun _ => .error ("resolver down")) :
        SalePriceResolver) ([(⟨"p1", "SKU-1", "Widget"⟩ : Product)].map (fun p => p.id)) =
      .error ("resolver down") ∧
    enrichWithSalePrices (some (fun _ => .error ("resolver down")))
        [⟨"p1", "SKU-1", "Widget"⟩] =
      .ok [⟨⟨"p1", "SKU-1", "Widget"⟩, none⟩] :=
  ⟨rfl, C7_degrade_not_fail.2.1 (fun _ => .error ("resolver down"))
    [⟨"p1", "SKU-1", "Widget"⟩] ("resolver down") rfl⟩

/-- C8: creating an order from an empty cart fails with the EmptyCart
error and persists nothing (the handler rejects it with the bad-request
cart-is-empty response before anything is stored), and creating an order
whose shipping address misses a required field fails with the
InvalidAddress error and persists nothing (the handler maps it to the
bad-request invalid-address response); in both cases the order store is
returned exactly as it was. -/
theorem C8_checkout_preconditions (genId genOrderNumber : String)
    (discount tax shipping : Money) (req : CreateOrderRequest)
    (store : OrdersStore) (now : Nat) :
    (req.cart.items = [] →
      createFromCart genId genOrderNumber discount tax shipping req store now =
        (.error .emptyCart, store) ∧
      handleCreateOrder genId genOrderNumber discount tax shipping req store now =
        (.badRequest ("Cart is empty"), store)) ∧
    (req.cart.items ≠ [] → hasRequiredFields req.shippingAddress = false →
      createFromCart genId genOrderNumber discount tax shipping req store now =
        (.error .invalidAddress, store) ∧
      handleCreateOrder genId genOrderNumber discount tax shipping req store now =
        (.badRequest ("Invalid address"), store)) := by
  constructor
  · intro h
    have hempty : req.cart.items.isEmpty = true := by simp [h]
    have hlen : req.cart.items.length = 0 := by simp [h]
    constructor
    · unfold createFromCart
      rw [if_pos hempty]
    · unfold handleCreateOrder
      rw [if_pos hlen]
  · intro h hreq
    have hempty : ¬ req.cart.items.isEmpty = true := by
      simpa [List.isEmpty_iff] using h
    have hlen : ¬ req.cart.items.length = 0 := by
      simpa [List.length_eq_zero] using h
    have hcf : createFromCart genId genOrderNumber discount tax shipping req store now =
        (.error .invalidAddress, store) := by
      unfold createFromCart
      rw [if_neg hempty, if_pos]
      simp [hreq]
    refine ⟨hcf, ?_⟩
    unfold handleCreateOrder
    rw [if_neg hlen, hcf]

/-- C9: order monetary coherence.  First, on reload the repository applies
the single stored currency column to all five totals, so they share one
currency.  Second, a store/reload round trip preserves the five amounts
and tags all five with the grand total's currency.  Third, every order the
materializer produces satisfies grandTotal = subtotal − discountTotal +
taxTotal + shippingTotal with all five totals in one currency (a currency
mismatch among the collaborator totals is rejected as fatal before
anything is persisted). -/
theorem C9_order_monetary_coherence :
    (∀ r : DBOrder,
      (orderToDomain r).subtotal.currency = r.currency ∧
      (orderToDomain r).discountTotal.currency = r.currency ∧
      (orderToDomain r).taxTotal.currency = r.currency ∧
      (orderToDomain r).shippingTotal.currency = r.currency ∧
      (orderToDomain r).total.currency = r.currency) ∧
    (∀ o : Order,
      (orderToDomain (orderToDatabase o)).subtotal.amount = o.subtotal.amount ∧
      (orderToDomain (orderToDatabase o)).discountTotal.amount = o.discountTotal.amount ∧
      (orderToDomain (orderToDatabase o)).taxTotal.amount = o.taxTotal.amount ∧
      (orderToDomain (orderToDatabase o)).shippingTotal.amount = o.shippingTotal.amount ∧
      (orderToDomain (orderToDatabase o)).total.amount = o.total.amount ∧
      (orderToDomain (orderToDatabase o)).subtotal.currency = o.total.currency ∧
      (orderToDomain (orderToDatabase o)).total.currency = o.total.currency) ∧
    (∀ (genId genOrderNumber : String) (discount tax shipping : Money)
        (req : CreateOrderRequest) (store : OrdersStore) (now : Nat)
        (ord : Order) (store2 : OrdersStore),
      createFromCart genId genOrderNumber discount tax shipping req store now =
        (.ok ord, store2) →
      ord.total.amount = ord.subtotal.amount - ord.discountTotal.amount +
        ord.taxTotal.amount + ord.shippingTotal.amount ∧
      ord.subtotal.currency = ord.total.currency ∧
      ord.discountTotal.currency = ord.total.currency ∧
      ord.taxTotal.currency = ord.total.currency ∧
      ord.shippingTotal.currency = ord.total.currency) := by
  refine ⟨fun r => ⟨rfl, rfl, rfl, rfl, rfl⟩,
          fun o => ⟨rfl, rfl, rfl, rfl, rfl, rfl, rfl⟩, ?_⟩
  intro genId genOrderNumber discount tax shipping req store now ord store2 h
  unfold createFromCart at h
  split at h
  · simp at h
  · split at h
    · simp at h
    · dsimp only at h
      split at h
      · simp at h
      · rename_i hguard
        rw [not_not] at hguard
        obtain ⟨hd, ht, hs⟩ := hguard
        injection h with h1 h2
        injection h1 with h1
        subst h1
        exact ⟨rfl, rfl, by simpa using hd, by simpa using ht, by simpa using hs⟩

/-! ### Witness instantiations -/

/-- C1 witness: stored set A, B of cart c1, desired set B, C; all three
finds return exactly B, C. -/
theorem C1_save_reconciliation_witness :
    (NodupKeys DBCartItem.id wStore.cartItems ∧
     NodupKeys DBCart.id wStore.carts ∧
     (wCart.items.map CartItem.id).Nodup ∧
     (∀ it ∈ wCart.items, it.addedAt ≠ 0) ∧
     (∀ r ∈ wStore.carts, r.userId = wCart.userId → r.id = wCart.id) ∧
     (∀ r ∈ wStore.carts, r.sessionId = wCart.sessionId → r.id = wCart.id)) ∧
    ((∃ c1, findByID (save 5 wCart wStore) wCart.id = .ok c1 ∧
        c1.items.Perm wCart.items) ∧
     (∃ c2, findByUserID (save 5 wCart wStore) wCart.userId = .ok c2 ∧
        c2.items.Perm wCart.items) ∧
     (∃ c3, findBySessionID (save 5 wCart wStore) wCart.sessionId = .ok c3 ∧
        c3.items.Perm wCart.items)) :=
  ⟨⟨by decide, by decide, by decide, by decide, by decide, by decide⟩,
   C1_save_reconciliation 5 wCart wStore (by decide) (by decide) (by decide)
     (by decide) (by decide) (by decide)⟩

/-- C3 witness: the double save of the concrete cart is one save. -/
theorem C3_save_idempotent_witness :
    (NodupKeys DBCartItem.id wStore.cartItems ∧
     (wCart.items.map CartItem.id).Nodup) ∧
    save 5 wCart (save 5 wCart wStore) = save 5 wCart wStore :=
  ⟨⟨by decide, by decide⟩, C3_save_idempotent 5 wCart wStore (by decide) (by decide)⟩

/-- C4 witness: saving the concrete cart with zero items keeps the header
and deletes exactly its item rows. -/
theorem C4_save_zero_items_witness :
    wCartEmpty.items = [] ∧
    ((save 5 wCartEmpty wStore).carts =
        upsertBy DBCart.id (toDatabase 5 wCartEmpty) wStore.carts ∧
     toDatabase 5 wCartEmpty ∈ (save 5 wCartEmpty wStore).carts ∧
     (save 5 wCartEmpty wStore).cartItems =
        wStore.cartItems.filter (fun r => ¬ r.cartId = wCartEmpty.id)) :=
  ⟨rfl, C4_save_zero_items 5 wCartEmpty wStore rfl⟩

/-- C8 witness: the empty-cart and incomplete-address requests fail with
EmptyCart and InvalidAddress, the handler maps them to the bad-request
responses, and the order store is unchanged. -/
theorem C8_checkout_preconditions_witness :
    (wReqEmpty.cart.items = [] ∧
     (createFromCart ("o1") ("N0001") ⟨0, "USD"⟩ ⟨0, "USD"⟩ ⟨0, "USD"⟩
        wReqEmpty wOrdStore 7 = (.error .emptyCart, wOrdStore) ∧
      handleCreateOrder ("o1") ("N0001") ⟨0, "USD"⟩ ⟨0, "USD"⟩ ⟨0, "USD"⟩
        wReqEmpty wOrdStore 7 = (.badRequest ("Cart is empty"), wOrdStore))) ∧
    (wReqBadAddr.cart.items ≠ [] ∧
     hasRequiredFields wReqBadAddr.shippingAddress = false ∧
     (createFromCart ("o1") ("N0001") ⟨0, "USD"⟩ ⟨0, "USD"⟩ ⟨0, "USD"⟩
        wReqBadAddr wOrdStore 7 = (.error .invalidAddress, wOrdStore) ∧
      handleCreateOrder ("o1") ("N0001") ⟨0, "USD"⟩ ⟨0, "USD"⟩ ⟨0, "USD"⟩
        wReqBadAddr wOrdStore 7 = (.badRequest ("Invalid address"), wOrdStore))) :=
  ⟨⟨rfl, (C8_checkout_preconditions ("o1") ("N0001") ⟨0, "USD"⟩ ⟨0, "USD"⟩
      ⟨0, "USD"⟩ wReqEmpty wOrdStore 7).1 rfl⟩,
   ⟨by decide, by decide,
    (C8_checkout_preconditions ("o1") ("N0001") ⟨0, "USD"⟩ ⟨0, "USD"⟩
      ⟨0, "USD"⟩ wReqBadAddr wOrdStore 7).2 (by decide) (by decide)⟩⟩

/-- C9 witness: a concrete materialized order satisfies the grand-total
equation in one shared currency. -/
theorem C9_order_monetary_coherence_witness :
    createFromCart ("o1") ("N0001") ⟨100, "USD"⟩ ⟨437, "USD"⟩ ⟨500, "USD"⟩
      wReqGood wOrdStore 7 = (.ok wC9order, ⟨[orderToDatabase wC9order]⟩) ∧
    (wC9order.total.amount = wC9order.subtotal.amount -
        wC9order.discountTotal.amount + wC9order.taxTotal.amount +
        wC9order.shippingTotal.amount ∧
     wC9order.subtotal.currency = wC9order.total.currency ∧
     wC9order.discountTotal.currency = wC9order.total.currency ∧
     wC9order.taxTotal.currency = wC9order.total.currency ∧
     wC9order.shippingTotal.currency = wC9order.total.currency) :=
  ⟨rfl, C9_order_monetary_coherence.2.2 ("o1") ("N0001") ⟨100, "USD"⟩
    ⟨437, "USD"⟩ ⟨500, "USD"⟩ wReqGood wOrdStore 7 wC9order
    ⟨[orderToDatabase wC9order]⟩ rfl⟩

end GoCommerce
